import Mathlib

/-!
Shallow embedding of `src/services/v1/s3/upload.py` (streaming multipart
upload to an S3-compatible store) together with the string helpers it uses
from the Python standard library (`urllib.parse.urlparse`, `unquote`,
`quote`, `os.path.basename`).

Modelling conventions:
* bytes are `Nat`s, byte strings are `List Nat`, chunks from
  `response.iter_content` are a `List (List Nat)` (the 1 MiB read window of
  `iter_content` is a transport detail; chunk sizes are arbitrary here);
* every interaction with the store (`boto3` client) goes through an
  `S3Oracle` of pure functions and is recorded in a trace of `S3Event`s,
  one event per call the Python code makes;
* a Python exception is an opaque value, modelled as a `String`; a call
  that can raise returns `Except String _`; the `try/except` block of
  `stream_upload_to_s3` only logs and re-raises, so an error value is
  propagated unchanged to the caller;
* `requests.get(file_url, stream=True)` + `raise_for_status()` +
  iteration is modelled by a parameter `fetch : Except String (List (List Nat))`
  (an HTTP or transport failure is the `.error` case);
* `uuid.uuid4()` is modelled by a parameter `uuid : String` (the generated
  identifier for one call).
-/

namespace S3Upload

/-! ### Python string helpers (ASCII-level models of the stdlib functions) -/

/-- Value of a hex digit, lower or upper case (as accepted by `unquote`). -/
def hexVal (c : Char) : Option Nat :=
  if '0' ≤ c ∧ c ≤ '9' then some (c.toNat - '0'.toNat)
  else if 'a' ≤ c ∧ c ≤ 'f' then some (c.toNat - 'a'.toNat + 10)
  else if 'A' ≤ c ∧ c ≤ 'F' then some (c.toNat - 'A'.toNat + 10)
  else none

/-- `urllib.parse.unquote` at the ASCII level: each valid `%XX` escape is
replaced by the character with code `XX`; an invalid escape is kept
literally. -/
def unquoteChars : List Char → List Char
  | '%' :: a :: b :: rest =>
    match hexVal a, hexVal b with
    | some x, some y => Char.ofNat (16 * x + y) :: unquoteChars rest
    | _, _ => '%' :: unquoteChars (a :: b :: rest)
  | c :: rest => c :: unquoteChars rest
  | [] => []

/-- Characters `urllib.parse.quote` never escapes (`_ALWAYS_SAFE`):
ASCII letters, digits and `_.-~`. -/
def alwaysSafe (c : Char) : Bool :=
  (('A' ≤ c ∧ c ≤ 'Z') ∨ ('a' ≤ c ∧ c ≤ 'z') ∨ ('0' ≤ c ∧ c ≤ '9')
    ∨ c = '_' ∨ c = '.' ∨ c = '-' ∨ c = '~')

/-- Upper-case hex digit of a value `< 16`. -/
def hexDigitUpper (n : Nat) : Char :=
  if n < 10 then Char.ofNat (48 + n) else Char.ofNat (55 + n)

/-- `urllib.parse.quote` with the default `safe='/'`, at the ASCII level:
every character that is neither always-safe nor `/` becomes `%XX` with
upper-case hex digits. -/
def quoteChars : List Char → List Char
  | [] => []
  | c :: rest =>
    if alwaysSafe c ∨ c = '/' then c :: quoteChars rest
    else '%' :: hexDigitUpper (c.toNat / 16) :: hexDigitUpper (c.toNat % 16)
      :: quoteChars rest

def unquote (s : String) : String := ⟨unquoteChars s.data⟩

def quote (s : String) : String := ⟨quoteChars s.data⟩

/-- `os.path.basename` (posixpath): the part of the path after the last
`/`. -/
def basenameChars (p : List Char) : List Char :=
  (p.reverse.takeWhile (fun c => c ≠ '/')).reverse

def basename (p : String) : String := ⟨basenameChars p.data⟩

/-- Characters allowed in a URL scheme (`urllib.parse.scheme_chars`). -/
def isSchemeChar (c : Char) : Bool :=
  (('A' ≤ c ∧ c ≤ 'Z') ∨ ('a' ≤ c ∧ c ≤ 'z') ∨ ('0' ≤ c ∧ c ≤ '9')
    ∨ c = '+' ∨ c = '-' ∨ c = '.')

/-- Split a character list at the first occurrence of `c`:
`some (before, after)` with `c` dropped, or `none` when absent. -/
def splitAtFirst (c : Char) : List Char → Option (List Char × List Char)
  | [] => none
  | d :: rest =>
    if d = c then some ([], rest)
    else (splitAtFirst c rest).map fun p => (d :: p.1, p.2)

/-- Schemes for which `urlparse` splits `;parameters` off the path
(`urllib.parse.uses_params`, the entries relevant to URLs). -/
def usesParams : List (List Char) :=
  [[], ['f','t','p'], ['h','t','t','p'], ['h','t','t','p','s'],
   ['s','h','t','t','p'], ['r','t','s','p'], ['r','t','s','p','u'],
   ['s','i','p'], ['s','i','p','s'], ['m','m','s'], ['s','f','t','p'],
   ['t','e','l'], ['i','m','a','p'], ['h','d','l'],
   ['p','r','o','s','p','e','r','o']]

/-- Lower-case an ASCII character (`str.lower` restricted to ASCII). -/
def toLowerChar (c : Char) : Char :=
  if 'A' ≤ c ∧ c ≤ 'Z' then Char.ofNat (c.toNat + 32) else c

/-- `urllib.parse.urlsplit`, restricted to the components that feed the
`.path` attribute: returns `(scheme, rest-after-netloc-strip)` before the
fragment/query removal. Mirrors CPython: a scheme is recognised when the
text before the first `:` is non-empty, starts with an ASCII letter and
consists of scheme characters; `//netloc` is cut at the first of
`/ ? #`. -/
def splitSchemeNetloc (url : List Char) : List Char × List Char :=
  let (scheme, url) :=
    match splitAtFirst ':' url with
    | some (before, after) =>
      if (match before with
          | c :: _ => (('A' ≤ c ∧ c ≤ 'Z') ∨ ('a' ≤ c ∧ c ≤ 'z')) ∧
              before.all isSchemeChar
          | [] => False : Bool) then
        (before.map toLowerChar, after)
      else ([], url)
    | none => ([], url)
  let url :=
    if url.take 2 = ['/', '/'] then
      (url.drop 2).dropWhile (fun c => c ≠ '/' ∧ c ≠ '?' ∧ c ≠ '#')
    else url
  (scheme, url)

/-- Drop the fragment (`#...`) and then the query (`?...`), as `urlsplit`
does after removing the netloc. -/
def dropFragmentQuery (url : List Char) : List Char :=
  let url := match splitAtFirst '#' url with
    | some (before, _) => before
    | none => url
  match splitAtFirst '?' url with
  | some (before, _) => before
  | none => url

/-- `urllib.parse._splitparams`, keeping only the path part: the `;` that
starts the parameters is searched from the last `/` on (or from the start
when the path has no `/`); everything from it on is dropped. Only called
when the path contains a `;`. -/
def splitParams (path : List Char) : List Char :=
  if path.any (fun c => c = '/') then
    let lastSeg := (path.reverse.takeWhile (fun c => c ≠ '/')).reverse
    if lastSeg.any (fun c => c = ';') then
      path.take (path.length - lastSeg.length
        + (lastSeg.takeWhile (fun c => c ≠ ';')).length)
    else path
  else path.takeWhile (fun c => c ≠ ';')

/-- The `.path` attribute of `urllib.parse.urlparse(url)`. -/
def urlparsePath (url : String) : String :=
  let (scheme, rest) := splitSchemeNetloc url.data
  let path := dropFragmentQuery rest
  let path :=
    if usesParams.contains scheme ∧ path.any (fun c => c = ';') then
      splitParams path
    else path
  ⟨path⟩

/-! ### `get_filename_from_url` (src/services/v1/s3/upload.py:43-47) -/

/-- `get_filename_from_url`: the decoded basename of the URL's path, or a
generated UUID string when that is empty (`filename or f"{uuid.uuid4()}"`).
The UUID drawn by this call is the `uuid` parameter. -/
def get_filename_from_url (url : String) (uuid : String) : String :=
  let path := urlparsePath url
  let filename := basename (unquote path)
  if filename = "" then uuid else filename

/-! ### Data model of the store interaction -/

/-- One entry of the `parts` manifest:
`{'PartNumber': part_number, 'ETag': part['ETag']}`. -/
structure Part where
  partNumber : Nat
  eTag : String
deriving Repr, DecidableEq

/-- One call the Python code makes on the boto3 client, in order. The
store API also offers `abort_multipart_upload`; `abortCall` is in the
event type so that its absence from every trace is expressible. -/
inductive S3Event where
  | createCall (key : String) (acl : String)
  | uploadPartCall (partNumber : Nat) (body : List Nat)
  | completeCall (parts : List Part)
  | abortCall
  | presignCall (key : String) (expiresIn : Nat)
deriving Repr, DecidableEq

/-- The store's responses, one pure function per API call the code uses:
`create_multipart_upload` (given key and ACL, an `UploadId` or an
exception), `upload_part` (given part number and body, an `ETag` or an
exception), `complete_multipart_upload`, `generate_presigned_url` (given
key and `ExpiresIn`). -/
structure S3Oracle where
  createUpload : String → String → Except String String
  uploadPart : Nat → List Nat → Except String String
  completeUpload : List Part → Except String Unit
  presign : String → Nat → Except String String

/-- The dict returned by `stream_upload_to_s3` on success. -/
structure UploadResult where
  file_url : String
  filename : String
  bucket : String
  public : Bool
deriving Repr, DecidableEq

/-- `chunk_size = 5 * 1024 * 1024` — the part-size threshold the buffer
is flushed at. -/
def chunk_size : Nat := 5 * 1024 * 1024

/-- The `for chunk in response.iter_content(...)` loop
(src/services/v1/s3/upload.py:79-93): extend the buffer with the chunk;
when it reaches `chunk_size`, upload it as the next part, record
`{PartNumber, ETag}` and reset the buffer; a failing `upload_part` raises
(loop ends with that error). Returns the trace of `upload_part` calls and,
on success, the state `(parts, buffer, part_number)` after the loop. -/
def upload_loop (oracle : S3Oracle) :
    List (List Nat) → List Nat → Nat → List Part →
    List S3Event × Except String (List Part × List Nat × Nat)
  | [], buffer, part_number, parts => ([], .ok (parts, buffer, part_number))
  | chunk :: rest, buffer, part_number, parts =>
    let buffer := buffer ++ chunk
    if chunk_size ≤ buffer.length then
      match oracle.uploadPart part_number buffer with
      | .ok etag =>
        let p := upload_loop oracle rest [] (part_number + 1)
          (parts ++ [⟨part_number, etag⟩])
        (.uploadPartCall part_number buffer :: p.1, p.2)
      | .error e => ([.uploadPartCall part_number buffer], .error e)
    else
      upload_loop oracle rest buffer part_number parts

/-- Lines 79-111: the chunk loop followed by `if buffer:` — the trailing
buffer, when non-empty, is uploaded as a final (possibly undersized) part.
Returns the completed `parts` manifest. -/
def upload_all_parts (oracle : S3Oracle) (chunks : List (List Nat)) :
    List S3Event × Except String (List Part) :=
  let p := upload_loop oracle chunks [] 1 []
  match p.2 with
  | .error e => (p.1, .error e)
  | .ok (parts, buffer, part_number) =>
    if buffer = [] then (p.1, .ok parts)
    else
      match oracle.uploadPart part_number buffer with
      | .ok etag =>
        (p.1 ++ [.uploadPartCall part_number buffer],
         .ok (parts ++ [⟨part_number, etag⟩]))
      | .error e => (p.1 ++ [.uploadPartCall part_number buffer], .error e)

/-- Line 59: `filename = custom_filename or get_filename_from_url(file_url)`
— Python `or` falls through on the falsy values `None` and `""`. -/
def chooseFilename (custom_filename : Option String)
    (file_url uuid : String) : String :=
  match custom_filename with
  | some s => if s = "" then get_filename_from_url file_url uuid else s
  | none => get_filename_from_url file_url uuid

/-- Lines 74-127 after a successful session open and fetch: the part
uploads, `complete_multipart_upload`, and the URL derivation (direct URL
built from endpoint, bucket and `quote(filename)` when public; otherwise
`generate_presigned_url` with `ExpiresIn=3600`). -/
def finish_upload (bucket_name endpoint_url filename : String)
    (oracle : S3Oracle) (make_public : Bool) (chunks : List (List Nat)) :
    List S3Event × Except String UploadResult :=
  let p := upload_all_parts oracle chunks
  match p.2 with
  | .error e => (p.1, .error e)
  | .ok parts =>
    match oracle.completeUpload parts with
    | .error e => (p.1 ++ [.completeCall parts], .error e)
    | .ok _ =>
      if make_public then
        (p.1 ++ [.completeCall parts],
         .ok ⟨endpoint_url ++ "/" ++ bucket_name ++ "/" ++ quote filename,
              filename, bucket_name, make_public⟩)
      else
        match oracle.presign filename 3600 with
        | .error e =>
          (p.1 ++ [.completeCall parts, .presignCall filename 3600], .error e)
        | .ok u =>
          (p.1 ++ [.completeCall parts, .presignCall filename 3600],
           .ok ⟨u, filename, bucket_name, make_public⟩)

/-- `stream_upload_to_s3` (src/services/v1/s3/upload.py:49-133).
`fetch` models `requests.get(file_url, stream=True)` with
`raise_for_status()`: the chunk sequence, or the HTTP/transport error.
The `try/except` wrapper only logs and re-raises, so every `.error`
value is the original exception, propagated unchanged. -/
def stream_upload_to_s3 (bucket_name endpoint_url : String)
    (oracle : S3Oracle) (fetch : Except String (List (List Nat)))
    (file_url : String) (custom_filename : Option String)
    (make_public : Bool) (uuid : String) :
    List S3Event × Except String UploadResult :=
  let filename := chooseFilename custom_filename file_url uuid
  let acl := if make_public then "public-read" else "private"
  let rest : List S3Event × Except String UploadResult :=
    match oracle.createUpload filename acl with
    | .error e => ([], .error e)
    | .ok _upload_id =>
      match fetch with
      | .error e => ([], .error e)
      | .ok chunks =>
        finish_upload bucket_name endpoint_url filename oracle make_public
          chunks
  (.createCall filename acl :: rest.1, rest.2)

/-! ### Trace projections -/

/-- The bodies of the `upload_part` calls of a trace, in call order. -/
def traceBodies (tr : List S3Event) : List (List Nat) :=
  tr.filterMap fun e => match e with
    | .uploadPartCall _ b => some b
    | _ => none

/-- The part numbers of the `upload_part` calls of a trace, in call
order. -/
def tracePartNums (tr : List S3Event) : List Nat :=
  tr.filterMap fun e => match e with
    | .uploadPartCall n _ => some n
    | _ => none

/-! ### Concrete stores used to evaluate the model on test inputs -/

/-- A store on which every call succeeds. -/
def okOracle : S3Oracle where
  createUpload := fun _ _ => .ok "uid"
  uploadPart := fun pn _ => .ok ("etag" ++ toString pn)
  completeUpload := fun _ => .ok ()
  presign := fun _ _ => .ok "signed-url"

/-- A store on which every part upload raises `"boom"`. -/
def failPartOracle : S3Oracle where
  createUpload := fun _ _ => .ok "uid"
  uploadPart := fun _ _ => .error "boom"
  completeUpload := fun _ => .ok ()
  presign := fun _ _ => .ok "signed-url"

/-- A store on which the upload of part 1 succeeds and every later part
upload raises `"boom"`. -/
def failSecondOracle : S3Oracle where
  createUpload := fun _ _ => .ok "uid"
  uploadPart := fun pn _ => if pn = 1 then .ok "etag1" else .error "boom"
  completeUpload := fun _ => .ok ()
  presign := fun _ _ => .ok "signed-url"

/-- A store on which everything succeeds except the presign call, which
raises `"boom"`. -/
def failPresignOracle : S3Oracle where
  createUpload := fun _ _ => .ok "uid"
  uploadPart := fun pn _ => .ok ("etag" ++ toString pn)
  completeUpload := fun _ => .ok ()
  presign := fun _ _ => .error "boom"

/-- A store on which everything succeeds except the completion call,
which raises `"boom"`. -/
def failCompleteOracle : S3Oracle where
  createUpload := fun _ _ => .ok "uid"
  uploadPart := fun pn _ => .ok ("etag" ++ toString pn)
  completeUpload := fun _ => .error "boom"
  presign := fun _ _ => .ok "signed-url"

@[simp] theorem traceBodies_nil : traceBodies [] = [] := rfl

@[simp] theorem traceBodies_cons_upload (n : Nat) (b : List Nat)
    (tr : List S3Event) :
    traceBodies (.uploadPartCall n b :: tr) = b :: traceBodies tr := rfl

@[simp] theorem traceBodies_cons_create (k a : String) (tr : List S3Event) :
    traceBodies (.createCall k a :: tr) = traceBodies tr := rfl

@[simp] theorem traceBodies_cons_complete (ps : List Part)
    (tr : List S3Event) :
    traceBodies (.completeCall ps :: tr) = traceBodies tr := rfl

@[simp] theorem traceBodies_cons_presign (k : String) (x : Nat)
    (tr : List S3Event) :
    traceBodies (.presignCall k x :: tr) = traceBodies tr := rfl

@[simp] theorem traceBodies_append (t₁ t₂ : List S3Event) :
    traceBodies (t₁ ++ t₂) = traceBodies t₁ ++ traceBodies t₂ :=
  List.filterMap_append ..

@[simp] theorem tracePartNums_nil : tracePartNums [] = [] := rfl

@[simp] theorem tracePartNums_cons_upload (n : Nat) (b : List Nat)
    (tr : List S3Event) :
    tracePartNums (.uploadPartCall n b :: tr) = n :: tracePartNums tr := rfl

@[simp] theorem tracePartNums_cons_create (k a : String)
    (tr : List S3Event) :
    tracePartNums (.createCall k a :: tr) = tracePartNums tr := rfl

@[simp] theorem tracePartNums_cons_complete (ps : List Part)
    (tr : List S3Event) :
    tracePartNums (.completeCall ps :: tr) = tracePartNums tr := rfl

@[simp] theorem tracePartNums_cons_presign (k : String) (x : Nat)
    (tr : List S3Event) :
    tracePartNums (.presignCall k x :: tr) = tracePartNums tr := rfl

@[simp] theorem tracePartNums_append (t₁ t₂ : List S3Event) :
    tracePartNums (t₁ ++ t₂) = tracePartNums t₁ ++ tracePartNums t₂ :=
  List.filterMap_append ..

theorem chunk_size_pos : 0 < chunk_size := by decide

/-! ### Invariants of the chunk loop -/

/-- Every event the chunk loop emits is an `upload_part` call whose body
has reached the `chunk_size` threshold. -/
theorem upload_loop_events (oracle : S3Oracle) :
    ∀ (chunks : List (List Nat)) (buffer : List Nat) (pn : Nat)
      (parts : List Part),
      ∀ ev ∈ (upload_loop oracle chunks buffer pn parts).1,
        ∃ k b, ev = S3Event.uploadPartCall k b ∧ chunk_size ≤ b.length := by
  intro chunks
  induction chunks with
  | nil => intro buffer pn parts ev hev; simp [upload_loop] at hev
  | cons chunk rest ih =>
    intro buffer pn parts ev hev
    simp only [upload_loop] at hev
    split at hev
    · rename_i hl
      split at hev
      · rename_i etag hu
        simp only [List.mem_cons] at hev
        rcases hev with h | h
        · exact ⟨pn, buffer ++ chunk, h, hl⟩
        · exact ih _ _ _ ev h
      · rename_i e hu
        simp only [List.mem_singleton] at hev
        exact ⟨pn, buffer ++ chunk, hev, hl⟩
    · exact ih _ _ _ ev hev

/-- Main invariant of a successful chunk loop: the flushed bodies plus the
leftover buffer reproduce the input bytes; part numbers are consecutive
from the starting number; the manifest grows in step with the trace; a
sub-threshold buffer stays sub-threshold. -/
theorem upload_loop_ok (oracle : S3Oracle) :
    ∀ (chunks : List (List Nat)) (buffer : List Nat) (pn : Nat)
      (parts : List Part) (tr : List S3Event) (parts' : List Part)
      (buffer' : List Nat) (pn' : Nat),
      upload_loop oracle chunks buffer pn parts
        = (tr, .ok (parts', buffer', pn')) →
      (traceBodies tr).flatten ++ buffer' = buffer ++ chunks.flatten ∧
      tracePartNums tr = List.range' pn (traceBodies tr).length ∧
      pn' = pn + (traceBodies tr).length ∧
      parts'.map Part.partNumber
        = parts.map Part.partNumber ++ tracePartNums tr ∧
      (∀ q ∈ parts', q ∈ parts ∨
        ∃ b, S3Event.uploadPartCall q.partNumber b ∈ tr ∧
          oracle.uploadPart q.partNumber b = .ok q.eTag) ∧
      (buffer.length < chunk_size → buffer'.length < chunk_size) := by
  intro chunks
  induction chunks with
  | nil =>
    intro buffer pn parts tr parts' buffer' pn' h
    simp only [upload_loop, Prod.mk.injEq, Except.ok.injEq] at h
    obtain ⟨htr, hp, hb, hpn⟩ := h
    subst htr; subst hp; subst hb; subst hpn
    exact ⟨by simp, by simp, by simp, by simp,
      fun q hq => Or.inl hq, fun hb => hb⟩
  | cons chunk rest ih =>
    intro buffer pn parts tr parts' buffer' pn' h
    simp only [upload_loop] at h
    split at h
    · rename_i hl
      split at h
      · rename_i etag hu
        rw [Prod.mk.injEq] at h
        obtain ⟨htr, hr⟩ := h
        rcases hq : upload_loop oracle rest [] (pn + 1)
            (parts ++ [⟨pn, etag⟩]) with ⟨tr₂, r₂⟩
        rw [hq] at htr hr
        dsimp only at htr hr
        subst hr
        obtain ⟨ih1, ih2, ih3, ih4, ih5, ih6⟩ := ih _ _ _ _ _ _ _ hq
        subst htr
        refine ⟨?_, ?_, ?_, ?_, ?_, ?_⟩
        · simp only [traceBodies_cons_upload, List.flatten_cons,
            List.append_assoc, List.flatten_cons]
          rw [ih1]
          simp
        · simp only [tracePartNums_cons_upload, traceBodies_cons_upload,
            List.length_cons, List.range'_succ]
          rw [ih2]
        · simp only [traceBodies_cons_upload, List.length_cons]
          omega
        · simp only [tracePartNums_cons_upload]
          rw [ih4]
          simp
        · intro q hq'
          rcases ih5 q hq' with hmem | ⟨b, hb, ho⟩
          · rw [List.mem_append] at hmem
            rcases hmem with hmem | hmem
            · exact Or.inl hmem
            · rw [List.mem_singleton] at hmem
              subst hmem
              exact Or.inr ⟨buffer ++ chunk, List.mem_cons_self _ _, hu⟩
          · exact Or.inr ⟨b, List.mem_cons_of_mem _ hb, ho⟩
        · exact fun _ => ih6 (by simpa using chunk_size_pos)
      · rename_i e hu
        rw [Prod.mk.injEq] at h
        exact absurd h.2 (by simp)
    · rename_i hl
      obtain ⟨ih1, ih2, ih3, ih4, ih5, ih6⟩ := ih _ _ _ _ _ _ _ h
      refine ⟨?_, ih2, ih3, ih4, ih5, ?_⟩
      · rw [ih1]; simp
      · exact fun _ => ih6 (Nat.lt_of_not_le hl)

/-- A failing chunk loop ends with the `upload_part` call that raised,
and the loop's result is that call's error, unchanged. -/
theorem upload_loop_err (oracle : S3Oracle) :
    ∀ (chunks : List (List Nat)) (buffer : List Nat) (pn : Nat)
      (parts : List Part) (tr : List S3Event) (e : String),
      upload_loop oracle chunks buffer pn parts = (tr, .error e) →
      ∃ tr₀ k b, tr = tr₀ ++ [S3Event.uploadPartCall k b] ∧
        oracle.uploadPart k b = .error e := by
  intro chunks
  induction chunks with
  | nil =>
    intro buffer pn parts tr e h
    simp only [upload_loop, Prod.mk.injEq] at h
    exact absurd h.2 (by simp)
  | cons chunk rest ih =>
    intro buffer pn parts tr e h
    simp only [upload_loop] at h
    split at h
    · rename_i hl
      split at h
      · rename_i etag hu
        rw [Prod.mk.injEq] at h
        obtain ⟨htr, hr⟩ := h
        rcases hq : upload_loop oracle rest [] (pn + 1)
            (parts ++ [⟨pn, etag⟩]) with ⟨tr₂, r₂⟩
        rw [hq] at htr hr
        dsimp only at htr hr
        subst hr
        obtain ⟨tr₀, k, b, htr₂, ho⟩ := ih _ _ _ _ _ hq
        subst htr
        exact ⟨S3Event.uploadPartCall pn (buffer ++ chunk) :: tr₀, k, b,
          by rw [htr₂]; simp, ho⟩
      · rename_i e' hu
        rw [Prod.mk.injEq] at h
        obtain ⟨htr, hr⟩ := h
        rw [Except.error.injEq] at hr
        subst htr; subst hr
        exact ⟨[], pn, buffer ++ chunk, by simp, hu⟩
    · exact ih _ _ _ _ _ h

/-- Every body the chunk loop uploads has reached the threshold. -/
theorem upload_loop_bodies_ge (oracle : S3Oracle) (chunks : List (List Nat))
    (buffer : List Nat) (pn : Nat) (parts : List Part) :
    ∀ b ∈ traceBodies (upload_loop oracle chunks buffer pn parts).1,
      chunk_size ≤ b.length := by
  intro b hb
  rw [traceBodies, List.mem_filterMap] at hb
  obtain ⟨ev, hev, hfb⟩ := hb
  obtain ⟨k, b', heq, hge⟩ := upload_loop_events oracle chunks buffer pn parts
    ev hev
  subst heq
  simp only [Option.some.injEq] at hfb
  subst hfb
  exact hge

/-- With an all-empty chunk sequence nothing reaches the threshold: no
part is uploaded and the state is unchanged. -/
theorem upload_loop_nil_chunks (oracle : S3Oracle) :
    ∀ (chunks : List (List Nat)) (buffer : List Nat) (pn : Nat)
      (parts : List Part), (∀ c ∈ chunks, c = []) →
      buffer.length < chunk_size →
      upload_loop oracle chunks buffer pn parts
        = ([], .ok (parts, buffer, pn)) := by
  intro chunks
  induction chunks with
  | nil => intro buffer pn parts _ _; rfl
  | cons chunk rest ih =>
    intro buffer pn parts hc hb
    have hchunk : chunk = [] := hc chunk (List.mem_cons_self _ _)
    subst hchunk
    simp only [upload_loop, List.append_nil]
    rw [if_neg (Nat.not_le_of_lt hb)]
    exact ih buffer pn parts (fun c hcm => hc c (List.mem_cons_of_mem _ hcm))
      hb

/-! ### Invariants of `upload_all_parts` -/

/-- Main invariant of a successful transfer of all parts: concatenating
the uploaded bodies in call order reproduces the source bytes; the part
numbers are exactly `1, ..., K`; the manifest mirrors the calls with the
store's integrity tags; no body is empty; all but the last body reach the
threshold. -/
theorem upload_all_parts_ok (oracle : S3Oracle) (chunks : List (List Nat))
    (tr : List S3Event) (parts : List Part)
    (h : upload_all_parts oracle chunks = (tr, .ok parts)) :
    (traceBodies tr).flatten = chunks.flatten ∧
    tracePartNums tr = List.range' 1 (traceBodies tr).length ∧
    parts.map Part.partNumber = tracePartNums tr ∧
    (∀ q ∈ parts, ∃ b, S3Event.uploadPartCall q.partNumber b ∈ tr ∧
      oracle.uploadPart q.partNumber b = .ok q.eTag) ∧
    (∀ b ∈ traceBodies tr, b ≠ []) ∧
    (∀ b ∈ (traceBodies tr).dropLast, chunk_size ≤ b.length) := by
  rcases hp : upload_loop oracle chunks [] 1 [] with ⟨ltr, lr⟩
  simp only [upload_all_parts, hp] at h
  split at h
  · rw [Prod.mk.injEq] at h
    exact absurd h.2 (by simp)
  · rename_i parts₀ buffer₀ pn₀
    obtain ⟨l1, l2, l3, l4, l5, l6⟩ :=
      upload_loop_ok oracle chunks [] 1 [] ltr parts₀ buffer₀ pn₀ hp
    simp only [List.nil_append, List.append_nil, List.map_nil] at l1 l4
    have hge := upload_loop_bodies_ge oracle chunks [] 1 []
    rw [hp] at hge
    dsimp only at hge
    split at h
    · rename_i hb
      subst hb
      rw [Prod.mk.injEq, Except.ok.injEq] at h
      obtain ⟨htr, hps⟩ := h
      subst htr; subst hps
      rw [List.append_nil] at l1
      refine ⟨l1, l2, l4, ?_, ?_, ?_⟩
      · intro q hq
        rcases l5 q hq with hmem | hmem
        · exact absurd hmem (List.not_mem_nil q)
        · exact hmem
      · intro b hb
        have := hge b hb
        intro hnil
        rw [hnil] at this
        exact absurd this (by simpa using chunk_size_pos.ne')
      · exact fun b hb => hge b ((List.dropLast_sublist _).subset hb)
    · rename_i hb
      split at h
      · rename_i etag hu
        rw [Prod.mk.injEq, Except.ok.injEq] at h
        obtain ⟨htr, hps⟩ := h
        subst htr; subst hps
        refine ⟨?_, ?_, ?_, ?_, ?_, ?_⟩
        · simp only [traceBodies_append, traceBodies_cons_upload,
            traceBodies_nil, List.flatten_append, List.flatten_cons,
            List.flatten_nil, List.append_nil]
          rw [← l1]
        · simp only [tracePartNums_append, tracePartNums_cons_upload,
            tracePartNums_nil, traceBodies_append, traceBodies_cons_upload,
            traceBodies_nil, List.length_append, List.length_cons,
            List.length_nil]
          rw [l2, l3, List.range'_concat]
          simp
        · simp only [List.map_append, List.map_cons, List.map_nil,
            tracePartNums_append, tracePartNums_cons_upload,
            tracePartNums_nil]
          rw [l4]
        · intro q hq
          rw [List.mem_append, List.mem_singleton] at hq
          rcases hq with hq | hq
          · rcases l5 q hq with hmem | ⟨b, hbm, ho⟩
            · exact absurd hmem (List.not_mem_nil q)
            · exact ⟨b, List.mem_append_left _ hbm, ho⟩
          · subst hq
            exact ⟨buffer₀, List.mem_append_right _ (by simp), hu⟩
        · intro b hbm
          simp only [traceBodies_append, traceBodies_cons_upload,
            traceBodies_nil, List.mem_append, List.mem_singleton] at hbm
          rcases hbm with hbm | hbm
          · have := hge b hbm
            intro hnil
            rw [hnil] at this
            exact absurd this (by simpa using chunk_size_pos.ne')
          · subst hbm; exact hb
        · intro b hbm
          simp only [traceBodies_append, traceBodies_cons_upload,
            traceBodies_nil] at hbm
          rw [List.dropLast_concat] at hbm
          exact hge b hbm
      · rw [Prod.mk.injEq] at h
        exact absurd h.2 (by simp)

/-- A failing `upload_all_parts` ends with the `upload_part` call that
raised; the error is that call's, unchanged, and the failing body is
non-empty. -/
theorem upload_all_parts_err (oracle : S3Oracle) (chunks : List (List Nat))
    (tr : List S3Event) (e : String)
    (h : upload_all_parts oracle chunks = (tr, .error e)) :
    ∃ tr₀ k b, tr = tr₀ ++ [S3Event.uploadPartCall k b] ∧
      oracle.uploadPart k b = .error e ∧ b ≠ [] := by
  rcases hp : upload_loop oracle chunks [] 1 [] with ⟨ltr, lr⟩
  simp only [upload_all_parts, hp] at h
  split at h
  · rename_i e'
    rw [Prod.mk.injEq, Except.error.injEq] at h
    obtain ⟨htr, he⟩ := h
    subst htr; subst he
    obtain ⟨tr₀, k, b, htr, ho⟩ := upload_loop_err oracle chunks [] 1 [] ltr
      _ hp
    refine ⟨tr₀, k, b, htr, ho, ?_⟩
    have hev : S3Event.uploadPartCall k b ∈ ltr := by
      rw [htr]; exact List.mem_append_right _ (by simp)
    obtain ⟨k', b', heq, hge⟩ := upload_loop_events oracle chunks [] 1 []
      _ (by rw [hp]; exact hev)
    rw [S3Event.uploadPartCall.injEq] at heq
    obtain ⟨hk, hb⟩ := heq
    subst hb
    intro hnil
    rw [hnil] at hge
    exact absurd hge (by simpa using chunk_size_pos.ne')
  · rename_i parts₀ buffer₀ pn₀
    split at h
    · rw [Prod.mk.injEq] at h
      exact absurd h.2 (by simp)
    · rename_i hb
      split at h
      · rw [Prod.mk.injEq] at h
        exact absurd h.2 (by simp)
      · rename_i e' hu
        rw [Prod.mk.injEq, Except.error.injEq] at h
        obtain ⟨htr, he⟩ := h
        subst htr; subst he
        exact ⟨ltr, pn₀, buffer₀, rfl, hu, hb⟩

/-- Every event `upload_all_parts` emits, on any outcome, is an
`upload_part` call with a non-empty body. -/
theorem upload_all_parts_events (oracle : S3Oracle)
    (chunks : List (List Nat)) :
    ∀ ev ∈ (upload_all_parts oracle chunks).1,
      ∃ k b, ev = S3Event.uploadPartCall k b ∧ b ≠ [] := by
  intro ev hev
  have hnonempty : ∀ (b : List Nat), chunk_size ≤ b.length → b ≠ [] := by
    intro b hge hnil
    rw [hnil] at hge
    exact absurd hge (by simpa using chunk_size_pos.ne')
  rcases hp : upload_loop oracle chunks [] 1 [] with ⟨ltr, lr⟩
  have hloop : ∀ ev ∈ ltr,
      ∃ k b, ev = S3Event.uploadPartCall k b ∧ b ≠ [] := by
    intro ev hev
    obtain ⟨k, b, heq, hge⟩ := upload_loop_events oracle chunks [] 1 [] ev
      (by rw [hp]; exact hev)
    exact ⟨k, b, heq, hnonempty b hge⟩
  simp only [upload_all_parts, hp] at hev
  split at hev
  · exact hloop ev hev
  · rename_i parts₀ buffer₀ pn₀
    split at hev
    · exact hloop ev hev
    · rename_i hb
      split at hev
      all_goals
        rw [List.mem_append, List.mem_singleton] at hev
        rcases hev with hev | hev
        · exact hloop ev hev
        · exact ⟨pn₀, buffer₀, hev, hb⟩

/-- A source that delivers no bytes leads to no `upload_part` call at
all: the final flush is suppressed on the empty buffer. -/
theorem upload_all_parts_empty_source (oracle : S3Oracle)
    (chunks : List (List Nat)) (h : chunks.flatten = []) :
    upload_all_parts oracle chunks = ([], .ok []) := by
  have h' : ∀ c ∈ chunks, c = [] := List.flatten_eq_nil_iff.mp h
  simp [upload_all_parts,
    upload_loop_nil_chunks oracle chunks [] 1 [] h'
      (by simpa using chunk_size_pos)]

/-! ### Invariants of `finish_upload` and `stream_upload_to_s3` -/

/-- Inversion of a successful `finish_upload`: the parts were uploaded,
the completion call succeeded, and the result URL comes from the branch
selected by `make_public` (direct URL with the quoted key, or the
presigned URL with `ExpiresIn=3600`). -/
theorem finish_upload_ok (bn eu f : String) (oracle : S3Oracle) (mp : Bool)
    (chunks : List (List Nat)) (tr : List S3Event) (res : UploadResult)
    (h : finish_upload bn eu f oracle mp chunks = (tr, .ok res)) :
    ∃ ptr parts, upload_all_parts oracle chunks = (ptr, .ok parts) ∧
      oracle.completeUpload parts = .ok () ∧
      res.filename = f ∧ res.bucket = bn ∧ res.public = mp ∧
      ((mp = true ∧ tr = ptr ++ [.completeCall parts] ∧
          res.file_url = eu ++ "/" ++ bn ++ "/" ++ quote f) ∨
       (mp = false ∧
          tr = ptr ++ [.completeCall parts, .presignCall f 3600] ∧
          oracle.presign f 3600 = .ok res.file_url)) := by
  rcases hp : upload_all_parts oracle chunks with ⟨ptr, pr⟩
  simp only [finish_upload, hp] at h
  split at h
  · rw [Prod.mk.injEq] at h
    exact absurd h.2 (by simp)
  · rename_i parts
    split at h
    · rw [Prod.mk.injEq] at h
      exact absurd h.2 (by simp)
    · rename_i u hc
      split at h
      · rename_i hmp
        rw [Prod.mk.injEq, Except.ok.injEq] at h
        obtain ⟨htr, hres⟩ := h
        subst htr; subst hres
        exact ⟨ptr, parts, rfl, hc, rfl, rfl, rfl,
          Or.inl ⟨hmp, rfl, rfl⟩⟩
      · rename_i hmp
        rw [Bool.not_eq_true] at hmp
        split at h
        · rw [Prod.mk.injEq] at h
          exact absurd h.2 (by simp)
        · rename_i u' hs
          rw [Prod.mk.injEq, Except.ok.injEq] at h
          obtain ⟨htr, hres⟩ := h
          subst htr; subst hres
          exact ⟨ptr, parts, rfl, hc, rfl, rfl, rfl,
            Or.inr ⟨hmp, rfl, hs⟩⟩

/-- A part-upload failure makes `finish_upload` stop with that error:
no completion call is attempted. -/
theorem finish_upload_parts_err (bn eu f : String) (oracle : S3Oracle)
    (mp : Bool) (chunks : List (List Nat)) (ptr : List S3Event) (e : String)
    (hp : upload_all_parts oracle chunks = (ptr, .error e)) :
    finish_upload bn eu f oracle mp chunks = (ptr, .error e) := by
  simp [finish_upload, hp]

/-- A failing completion call makes `finish_upload` stop with that error,
after the completion call was attempted. -/
theorem finish_upload_complete_err (bn eu f : String) (oracle : S3Oracle)
    (mp : Bool) (chunks : List (List Nat)) (ptr : List S3Event)
    (parts : List Part) (e : String)
    (hp : upload_all_parts oracle chunks = (ptr, .ok parts))
    (hc : oracle.completeUpload parts = .error e) :
    finish_upload bn eu f oracle mp chunks
      = (ptr ++ [.completeCall parts], .error e) := by
  simp [finish_upload, hp, hc]

/-- A failing presign after a successful completion makes `finish_upload`
return the raw signing error, with the successful completion visible in
the trace. -/
theorem finish_upload_presign_err (bn eu f : String) (oracle : S3Oracle)
    (chunks : List (List Nat)) (ptr : List S3Event) (parts : List Part)
    (e : String)
    (hp : upload_all_parts oracle chunks = (ptr, .ok parts))
    (hc : oracle.completeUpload parts = .ok ())
    (hs : oracle.presign f 3600 = .error e) :
    finish_upload bn eu f oracle false chunks
      = (ptr ++ [.completeCall parts, .presignCall f 3600], .error e) := by
  simp [finish_upload, hp, hc, hs]

/-- Classification of the events `finish_upload` emits, on any outcome:
part uploads (never with an empty body), completion calls and presign
calls — in particular, never an abort. -/
theorem finish_upload_events (bn eu f : String) (oracle : S3Oracle)
    (mp : Bool) (chunks : List (List Nat)) :
    ∀ ev ∈ (finish_upload bn eu f oracle mp chunks).1,
      ev ∈ (upload_all_parts oracle chunks).1 ∨
      (∃ ps, ev = S3Event.completeCall ps) ∨
      (∃ k x, ev = S3Event.presignCall k x) := by
  intro ev hev
  rcases hp : upload_all_parts oracle chunks with ⟨ptr, pr⟩
  simp only [finish_upload, hp] at hev
  split at hev
  · exact Or.inl hev
  · rename_i parts
    split at hev
    · rw [List.mem_append, List.mem_singleton] at hev
      rcases hev with hev | hev
      · exact Or.inl hev
      · exact Or.inr (Or.inl ⟨parts, hev⟩)
    · split at hev
      · rw [List.mem_append, List.mem_singleton] at hev
        rcases hev with hev | hev
        · exact Or.inl hev
        · exact Or.inr (Or.inl ⟨parts, hev⟩)
      · split at hev
        all_goals
          simp only [List.mem_append, List.mem_cons,
            List.mem_singleton, List.not_mem_nil, or_false] at hev
          rcases hev with hev | hev | hev
          · exact Or.inl hev
          · exact Or.inr (Or.inl ⟨parts, hev⟩)
          · exact Or.inr (Or.inr ⟨f, 3600, hev⟩)

/-- When the open and the fetch succeed, the whole transfer is the open
call followed by `finish_upload`. -/
theorem stream_upload_run (bn eu : String) (oracle : S3Oracle)
    (url : String) (cf : Option String) (mp : Bool) (uuid uid : String)
    (chunks : List (List Nat))
    (hc : oracle.createUpload (chooseFilename cf url uuid)
      (if mp then "public-read" else "private") = .ok uid) :
    stream_upload_to_s3 bn eu oracle (.ok chunks) url cf mp uuid
      = (.createCall (chooseFilename cf url uuid)
          (if mp then "public-read" else "private")
          :: (finish_upload bn eu (chooseFilename cf url uuid) oracle mp
              chunks).1,
         (finish_upload bn eu (chooseFilename cf url uuid) oracle mp
             chunks).2) := by
  simp only [stream_upload_to_s3, hc]

/-- Inversion of a successful whole transfer: session open succeeded, the
fetch succeeded, and `finish_upload` produced the result; the trace is the
session-open call followed by the `finish_upload` trace. -/
theorem stream_upload_ok (bn eu : String) (oracle : S3Oracle)
    (fetch : Except String (List (List Nat))) (url : String)
    (cf : Option String) (mp : Bool) (uuid : String) (tr : List S3Event)
    (res : UploadResult)
    (h : stream_upload_to_s3 bn eu oracle fetch url cf mp uuid
      = (tr, .ok res)) :
    ∃ uid chunks ftr,
      oracle.createUpload (chooseFilename cf url uuid)
        (if mp then "public-read" else "private") = .ok uid ∧
      fetch = .ok chunks ∧
      finish_upload bn eu (chooseFilename cf url uuid) oracle mp chunks
        = (ftr, .ok res) ∧
      tr = .createCall (chooseFilename cf url uuid)
        (if mp then "public-read" else "private") :: ftr := by
  rcases hc : oracle.createUpload (chooseFilename cf url uuid)
      (if mp then "public-read" else "private") with e | uid
  · have hrun : stream_upload_to_s3 bn eu oracle fetch url cf mp uuid
        = ([.createCall (chooseFilename cf url uuid)
            (if mp then "public-read" else "private")], .error e) := by
      simp [stream_upload_to_s3, hc]
    rw [hrun, Prod.mk.injEq] at h
    exact absurd h.2 (by simp)
  · rcases hf : fetch with e | chunks
    · have hrun : stream_upload_to_s3 bn eu oracle (.error e) url cf mp uuid
          = ([.createCall (chooseFilename cf url uuid)
              (if mp then "public-read" else "private")], .error e) := by
        simp [stream_upload_to_s3, hc]
      rw [hf, hrun, Prod.mk.injEq] at h
      exact absurd h.2 (by simp)
    · rw [hf, stream_upload_run bn eu oracle url cf mp uuid uid chunks hc,
        Prod.mk.injEq] at h
      obtain ⟨htr, hr⟩ := h
      refine ⟨uid, chunks,
        (finish_upload bn eu (chooseFilename cf url uuid) oracle mp
          chunks).1, rfl, rfl, ?_, htr.symm⟩
      rw [← hr]


/-- Classification of the events of a whole transfer, on any outcome:
session open, part uploads with non-empty bodies, completion and presign
— never an abort. -/
theorem stream_upload_events (bn eu : String) (oracle : S3Oracle)
    (fetch : Except String (List (List Nat))) (url : String)
    (cf : Option String) (mp : Bool) (uuid : String) :
    ∀ ev ∈ (stream_upload_to_s3 bn eu oracle fetch url cf mp uuid).1,
      (∃ k a, ev = S3Event.createCall k a) ∨
      (∃ k b, ev = S3Event.uploadPartCall k b ∧ b ≠ []) ∨
      (∃ ps, ev = S3Event.completeCall ps) ∨
      (∃ k x, ev = S3Event.presignCall k x) := by
  intro ev hev
  simp only [stream_upload_to_s3] at hev
  rw [List.mem_cons] at hev
  rcases hev with hev | hev
  · exact Or.inl ⟨_, _, hev⟩
  · rcases hc : oracle.createUpload (chooseFilename cf url uuid)
        (if mp then "public-read" else "private") with e | uid
    · rw [hc] at hev
      simp at hev
    · rw [hc] at hev
      rcases hf : fetch with e | chunks
      · rw [hf] at hev
        simp at hev
      · rw [hf] at hev
        rcases finish_upload_events bn eu _ oracle mp chunks ev hev with
          hev | hev | hev
        · exact Or.inr (Or.inl
            (upload_all_parts_events oracle chunks ev hev))
        · exact Or.inr (Or.inr (Or.inl hev))
        · exact Or.inr (Or.inr (Or.inr hev))

/-- Unfolding of one loop step when the appended chunk leaves the buffer
below the threshold: nothing is uploaded, reading continues with the
extended buffer. -/
theorem upload_loop_step_lt (oracle : S3Oracle) (chunk : List Nat)
    (rest : List (List Nat)) (buffer : List Nat) (pn : Nat)
    (parts : List Part) (h : (buffer ++ chunk).length < chunk_size) :
    upload_loop oracle (chunk :: rest) buffer pn parts
      = upload_loop oracle rest (buffer ++ chunk) pn parts := by
  simp only [upload_loop]
  rw [if_neg (Nat.not_le_of_lt h)]

/-- Unfolding of one loop step when the appended chunk reaches the
threshold and the store accepts the part: the buffer is flushed as the
part with the current number and the loop continues on an empty buffer. -/
theorem upload_loop_step_flush_ok (oracle : S3Oracle) (chunk : List Nat)
    (rest : List (List Nat)) (buffer : List Nat) (pn : Nat)
    (parts : List Part) (etag : String)
    (hge : chunk_size ≤ (buffer ++ chunk).length)
    (hok : oracle.uploadPart pn (buffer ++ chunk) = .ok etag) :
    upload_loop oracle (chunk :: rest) buffer pn parts
      = (S3Event.uploadPartCall pn (buffer ++ chunk)
          :: (upload_loop oracle rest [] (pn + 1)
              (parts ++ [⟨pn, etag⟩])).1,
         (upload_loop oracle rest [] (pn + 1)
             (parts ++ [⟨pn, etag⟩])).2) := by
  simp only [upload_loop]
  rw [if_pos hge, hok]

/-- Unfolding of one loop step when the appended chunk reaches the
threshold and the store rejects the part: the loop stops with the raw
store error after that one call. -/
theorem upload_loop_step_flush_err (oracle : S3Oracle) (chunk : List Nat)
    (rest : List (List Nat)) (buffer : List Nat) (pn : Nat)
    (parts : List Part) (e : String)
    (hge : chunk_size ≤ (buffer ++ chunk).length)
    (herr : oracle.uploadPart pn (buffer ++ chunk) = .error e) :
    upload_loop oracle (chunk :: rest) buffer pn parts
      = ([S3Event.uploadPartCall pn (buffer ++ chunk)], .error e) := by
  simp only [upload_loop]
  rw [if_pos hge, herr]

/-- As long as the generated UUID string is non-empty,
`get_filename_from_url` never returns the empty string. -/
theorem get_filename_from_url_ne_empty (url uuid : String)
    (h : uuid ≠ "") : get_filename_from_url url uuid ≠ "" := by
  simp only [get_filename_from_url]
  split
  · exact h
  · rename_i hb
    exact hb

/-- Evaluation of `upload_all_parts` on a two-chunk source whose first
chunk alone reaches the threshold (uploaded as part 1) and whose second
chunk stays below it and then fails as the final part 2. -/
theorem upload_all_parts_big_then_fail (oracle : S3Oracle)
    (c₁ c₂ : List Nat) (etag e : String)
    (hge : chunk_size ≤ c₁.length) (hlt : c₂.length < chunk_size)
    (hne : c₂ ≠ [])
    (hok : oracle.uploadPart 1 c₁ = .ok etag)
    (herr : oracle.uploadPart 2 c₂ = .error e) :
    upload_all_parts oracle [c₁, c₂]
      = ([S3Event.uploadPartCall 1 c₁, S3Event.uploadPartCall 2 c₂],
         .error e) := by
  have hin : upload_loop oracle [c₂] [] 2 [⟨1, etag⟩]
      = ([], .ok ([⟨1, etag⟩], c₂, 2)) := by
    rw [upload_loop_step_lt oracle c₂ [] [] 2 [⟨1, etag⟩]
      (by simpa using hlt)]
    rfl
  have hloop : upload_loop oracle [c₁, c₂] [] 1 []
      = ([S3Event.uploadPartCall 1 c₁], .ok ([⟨1, etag⟩], c₂, 2)) := by
    rw [upload_loop_step_flush_ok oracle c₁ [c₂] [] 1 [] etag
      (by simpa using hge) (by simpa using hok)]
    simp [hin]
  simp [upload_all_parts, hloop, hne, herr]

/-! ### The claims -/

/-- C2: for every finite source byte stream, concatenating the payloads of
all uploaded parts in sequence-number order reproduces the source's bytes
exactly, with no gaps, no duplication and no reordering, regardless of the
chunk sizes in which the source delivers bytes (the parts are uploaded in
strictly increasing sequence order, so call order is sequence order). -/
theorem C2_round_trip (bn eu : String) (oracle : S3Oracle)
    (chunks : List (List Nat)) (url : String) (cf : Option String)
    (mp : Bool) (uuid : String) (tr : List S3Event) (res : UploadResult)
    (h : stream_upload_to_s3 bn eu oracle (.ok chunks) url cf mp uuid
      = (tr, .ok res)) :
    (traceBodies tr).flatten = chunks.flatten ∧
    tracePartNums tr = List.range' 1 (traceBodies tr).length := by
  obtain ⟨uid, chunks', ftr, hc, hf, hfin, htr⟩ :=
    stream_upload_ok bn eu oracle (.ok chunks) url cf mp uuid tr res h
  rw [Except.ok.injEq] at hf
  subst hf
  obtain ⟨ptr, parts, hp, hcomp, _, _, _, hbr⟩ :=
    finish_upload_ok bn eu _ oracle mp chunks ftr res hfin
  obtain ⟨a1, a2, a3, a4, a5, a6⟩ :=
    upload_all_parts_ok oracle chunks ptr parts hp
  subst htr
  rcases hbr with ⟨_, hftr, _⟩ | ⟨_, hftr, _⟩ <;> subst hftr <;>
    simp [a1, a2]

/-- Witness for C2: a two-chunk source of bytes `[1, 2], [3]`, uploaded through
an always-succeeding store as one final part. -/
theorem C2_round_trip_witness :
    (traceBodies [S3Event.createCall "f.bin" "public-read",
        S3Event.uploadPartCall 1 [1, 2, 3],
        S3Event.completeCall [⟨1, "etag1"⟩]]).flatten
      = [[1, 2], [3]].flatten ∧
    tracePartNums [S3Event.createCall "f.bin" "public-read",
        S3Event.uploadPartCall 1 [1, 2, 3],
        S3Event.completeCall [⟨1, "etag1"⟩]]
      = List.range' 1 (traceBodies [S3Event.createCall "f.bin" "public-read",
          S3Event.uploadPartCall 1 [1, 2, 3],
          S3Event.completeCall [⟨1, "etag1"⟩]]).length :=
  C2_round_trip "bk" "ep" okOracle [[1, 2], [3]] "https://host/f.bin" none
    true "u" _ _ rfl

/-- C3: in a successful transfer the sequence numbers in the completion
manifest are exactly 1, ..., K with no gaps, regardless of the chunk sizes
the source returns, and each manifest entry carries the integrity tag the
store returned for that part's upload. -/
theorem C3_sequencing (bn eu : String) (oracle : S3Oracle)
    (chunks : List (List Nat)) (url : String) (cf : Option String)
    (mp : Bool) (uuid : String) (tr : List S3Event) (res : UploadResult)
    (h : stream_upload_to_s3 bn eu oracle (.ok chunks) url cf mp uuid
      = (tr, .ok res)) :
    ∃ parts, S3Event.completeCall parts ∈ tr ∧
      parts.map Part.partNumber = List.range' 1 parts.length ∧
      ∀ q ∈ parts, ∃ b, S3Event.uploadPartCall q.partNumber b ∈ tr ∧
        oracle.uploadPart q.partNumber b = .ok q.eTag := by
  obtain ⟨uid, chunks', ftr, hc, hf, hfin, htr⟩ :=
    stream_upload_ok bn eu oracle (.ok chunks) url cf mp uuid tr res h
  obtain ⟨ptr, parts, hp, hcomp, _, _, _, hbr⟩ :=
    finish_upload_ok bn eu _ oracle mp chunks' ftr res hfin
  obtain ⟨a1, a2, a3, a4, a5, a6⟩ :=
    upload_all_parts_ok oracle chunks' ptr parts hp
  have hlen : parts.length = (traceBodies ptr).length := by
    have hl := congrArg List.length a3
    rw [List.length_map] at hl
    rw [hl, a2, List.length_range']
  subst htr
  rcases hbr with ⟨_, hftr, _⟩ | ⟨_, hftr, _⟩ <;> subst hftr <;>
    exact ⟨parts, by simp, by rw [a3, a2, hlen], fun q hq => by
      obtain ⟨b, hbm, ho⟩ := a4 q hq
      exact ⟨b, List.mem_cons_of_mem _ (List.mem_append_left _ hbm), ho⟩⟩

/-- Witness for C3: a private-visibility transfer whose manifest has the
single entry `{PartNumber 1, ETag "etag1"}`. -/
theorem C3_sequencing_witness :
    ∃ parts, S3Event.completeCall parts ∈
        [S3Event.createCall "f.bin" "private",
         S3Event.uploadPartCall 1 [1, 2, 3],
         S3Event.completeCall [⟨1, "etag1"⟩],
         S3Event.presignCall "f.bin" 3600] ∧
      parts.map Part.partNumber = List.range' 1 parts.length ∧
      ∀ q ∈ parts, ∃ b, S3Event.uploadPartCall q.partNumber b ∈
          [S3Event.createCall "f.bin" "private",
           S3Event.uploadPartCall 1 [1, 2, 3],
           S3Event.completeCall [⟨1, "etag1"⟩],
           S3Event.presignCall "f.bin" 3600] ∧
        okOracle.uploadPart q.partNumber b = .ok q.eTag :=
  C3_sequencing "bk" "ep" okOracle [[1, 2], [3]] "https://host/f.bin" none
    false "u" _ _ rfl

/-- C6: a part is emitted (automatic flush) exactly when the buffer, after
a chunk is appended, has reached the 5 MiB threshold (`chunk_size`):
below the threshold nothing is uploaded and reading continues on the
extended buffer; at or above it the whole buffer is uploaded as the
current part and the loop continues on an empty buffer; the loop's
leftover buffer always stays below the threshold; and in a successful
transfer every uploaded body except possibly the final one is at least
5 MiB. -/
theorem C6_threshold_flush (oracle : S3Oracle) :
    (∀ (chunk : List Nat) (rest : List (List Nat)) (buffer : List Nat)
        (pn : Nat) (parts : List Part),
      (buffer ++ chunk).length < chunk_size →
        upload_loop oracle (chunk :: rest) buffer pn parts
          = upload_loop oracle rest (buffer ++ chunk) pn parts) ∧
    (∀ (chunk : List Nat) (rest : List (List Nat)) (buffer : List Nat)
        (pn : Nat) (parts : List Part) (etag : String),
      chunk_size ≤ (buffer ++ chunk).length →
      oracle.uploadPart pn (buffer ++ chunk) = .ok etag →
        upload_loop oracle (chunk :: rest) buffer pn parts
          = (S3Event.uploadPartCall pn (buffer ++ chunk)
              :: (upload_loop oracle rest [] (pn + 1)
                  (parts ++ [⟨pn, etag⟩])).1,
             (upload_loop oracle rest [] (pn + 1)
                 (parts ++ [⟨pn, etag⟩])).2)) ∧
    (∀ (chunks : List (List Nat)) (ltr : List S3Event) (parts : List Part)
        (buffer : List Nat) (pn : Nat),
      upload_loop oracle chunks [] 1 [] = (ltr, .ok (parts, buffer, pn)) →
        buffer.length < chunk_size) ∧
    (∀ (chunks : List (List Nat)) (tr : List S3Event) (parts : List Part),
      upload_all_parts oracle chunks = (tr, .ok parts) →
        ∀ b ∈ (traceBodies tr).dropLast, chunk_size ≤ b.length) := by
  refine ⟨upload_loop_step_lt oracle, upload_loop_step_flush_ok oracle,
    ?_, ?_⟩
  · intro chunks ltr parts buffer pn h
    exact (upload_loop_ok oracle chunks [] 1 [] ltr parts buffer pn
      h).2.2.2.2.2 (by simpa using chunk_size_pos)
  · intro chunks tr parts h
    exact (upload_all_parts_ok oracle chunks tr parts h).2.2.2.2.2

/-- Witness for C6 on concrete inputs: a 1-byte chunk does not flush, a
5 MiB chunk flushes as part 1 and the loop continues on an empty buffer,
a leftover of one byte is below the threshold, and the single final part
of a 1-byte transfer is exempt from the size floor. -/
theorem C6_threshold_flush_witness :
    (upload_loop okOracle [[1]] [] 1 []
      = upload_loop okOracle [] ([] ++ [1]) 1 []) ∧
    (upload_loop okOracle [List.replicate chunk_size 0] [] 1 []
      = (S3Event.uploadPartCall 1 ([] ++ List.replicate chunk_size 0)
          :: (upload_loop okOracle [] [] 2 [⟨1, "etag1"⟩]).1,
         (upload_loop okOracle [] [] 2 [⟨1, "etag1"⟩]).2)) ∧
    ([1] : List Nat).length < chunk_size ∧
    (∀ b ∈ (traceBodies [S3Event.uploadPartCall 1 [1]]).dropLast,
      chunk_size ≤ b.length) :=
  ⟨(C6_threshold_flush okOracle).1 [1] [] [] 1 [] (by decide),
   (C6_threshold_flush okOracle).2.1 (List.replicate chunk_size 0) [] [] 1
     [] "etag1" (by simp) rfl,
   (C6_threshold_flush okOracle).2.2.1 [[1]] [] [] [1] 1 rfl,
   (C6_threshold_flush okOracle).2.2.2 [[1]] [S3Event.uploadPartCall 1 [1]]
     [⟨1, "etag1"⟩] rfl⟩

/-- C7: the pipeline never uploads a zero-length part (every
`upload_part` call in any run carries a non-empty body), and a source
that delivers no bytes leads to no part-append call at all. -/
theorem C7_no_empty_part (bn eu : String) (oracle : S3Oracle)
    (fetch : Except String (List (List Nat))) (url : String)
    (cf : Option String) (mp : Bool) (uuid : String) :
    (∀ (k : Nat) (b : List Nat),
      S3Event.uploadPartCall k b
          ∈ (stream_upload_to_s3 bn eu oracle fetch url cf mp uuid).1 →
        b ≠ []) ∧
    (∀ chunks : List (List Nat), fetch = .ok chunks → chunks.flatten = [] →
      ∀ (k : Nat) (b : List Nat),
        S3Event.uploadPartCall k b
          ∉ (stream_upload_to_s3 bn eu oracle fetch url cf mp uuid).1) := by
  constructor
  · intro k b hmem
    rcases stream_upload_events bn eu oracle fetch url cf mp uuid _ hmem
      with ⟨k', a', heq⟩ | ⟨k', b', heq, hne⟩ | ⟨ps, heq⟩ | ⟨k', x, heq⟩
    · exact absurd heq (by simp)
    · rw [S3Event.uploadPartCall.injEq] at heq
      obtain ⟨hk, hb⟩ := heq
      subst hb
      exact hne
    · exact absurd heq (by simp)
    · exact absurd heq (by simp)
  · intro chunks hf hflat k b hmem
    subst hf
    have hparts := upload_all_parts_empty_source oracle chunks hflat
    rcases hc : oracle.createUpload (chooseFilename cf url uuid)
        (if mp then "public-read" else "private") with e | uid
    · have hrun : stream_upload_to_s3 bn eu oracle (.ok chunks) url cf mp
          uuid = ([.createCall (chooseFilename cf url uuid)
            (if mp then "public-read" else "private")], .error e) := by
        simp [stream_upload_to_s3, hc]
      rw [hrun] at hmem
      simp at hmem
    · rw [stream_upload_run bn eu oracle url cf mp uuid uid chunks hc]
        at hmem
      rw [List.mem_cons] at hmem
      rcases hmem with heq | hmem
      · exact absurd heq (by simp)
      · rcases finish_upload_events bn eu _ oracle mp chunks _ hmem with
          hmem | ⟨ps, heq⟩ | ⟨k', x, heq⟩
        · rw [hparts] at hmem
          simp at hmem
        · exact absurd heq (by simp)
        · exact absurd heq (by simp)

/-- Witness for C7: in the 1-byte transfer the single uploaded body is
non-empty, and in a transfer whose two chunks are both empty no part
upload occurs. -/
theorem C7_no_empty_part_witness :
    (([1] : List Nat) ≠ []) ∧
    (S3Event.uploadPartCall 1 [1]
      ∉ (stream_upload_to_s3 "bk" "ep" okOracle (.ok [[], []])
          "https://host/f.bin" none true "u").1) :=
  ⟨(C7_no_empty_part "bk" "ep" okOracle (.ok [[1]]) "https://host/f.bin"
      none true "u").1 1 [1] (by decide),
   (C7_no_empty_part "bk" "ep" okOracle (.ok [[], []]) "https://host/f.bin"
      none true "u").2 [[], []] rfl rfl 1 [1]⟩

/-- C8: after successful completion, a public transfer's URL is the
deterministic concatenation endpoint + "/" + bucket + "/" +
percent-encoded key, and a private transfer's URL is the signed URL the
store returned for the key with the default validity `ExpiresIn = 3600`
seconds, requested by a presign call in the trace. -/
theorem C8_url_branching (bn eu : String) (oracle : S3Oracle)
    (fetch : Except String (List (List Nat))) (url : String)
    (cf : Option String) (mp : Bool) (uuid : String) (tr : List S3Event)
    (res : UploadResult)
    (h : stream_upload_to_s3 bn eu oracle fetch url cf mp uuid
      = (tr, .ok res)) :
    (mp = true →
      res.file_url = eu ++ "/" ++ bn ++ "/" ++ quote res.filename) ∧
    (mp = false →
      oracle.presign res.filename 3600 = .ok res.file_url ∧
        S3Event.presignCall res.filename 3600 ∈ tr) := by
  obtain ⟨uid, chunks, ftr, hc, hf, hfin, htr⟩ :=
    stream_upload_ok bn eu oracle fetch url cf mp uuid tr res h
  obtain ⟨ptr, parts, hp, hcomp, hfn, hbk, hpub, hbr⟩ :=
    finish_upload_ok bn eu _ oracle mp chunks ftr res hfin
  constructor
  · intro hmp
    rcases hbr with ⟨_, _, hurl⟩ | ⟨hmp', _, _⟩
    · rw [hfn]
      exact hurl
    · rw [hmp] at hmp'
      exact absurd hmp' (by simp)
  · intro hmp
    rcases hbr with ⟨hmp', _, _⟩ | ⟨_, hftr, hsig⟩
    · rw [hmp] at hmp'
      exact absurd hmp' (by simp)
    · constructor
      · rw [hfn]
        exact hsig
      · subst htr
        subst hftr
        rw [hfn]
        simp

/-- Witness for C8: the public 1-byte transfer yields the direct URL
built from endpoint, bucket and quoted key; the private one yields the
store's signed URL via a presign call with expiry 3600. -/
theorem C8_url_branching_witness :
    ("ep/bk/f.bin" = "ep" ++ "/" ++ "bk" ++ "/" ++ quote "f.bin") ∧
    (okOracle.presign "f.bin" 3600 = .ok "signed-url" ∧
      S3Event.presignCall "f.bin" 3600 ∈
        [S3Event.createCall "f.bin" "private",
         S3Event.uploadPartCall 1 [1],
         S3Event.completeCall [⟨1, "etag1"⟩],
         S3Event.presignCall "f.bin" 3600]) :=
  ⟨(C8_url_branching "bk" "ep" okOracle (.ok [[1]]) "https://host/f.bin"
      none true "u" _ _ rfl).1 rfl,
   (C8_url_branching "bk" "ep" okOracle (.ok [[1]]) "https://host/f.bin"
      none false "u" _ _ rfl).2 rfl⟩

/-- C9: with no custom name, the object key is derived from the URL's
path: the decoded basename, as in `https://host/path/My File.csv` (also
in its percent-encoded spelling) yielding `My File.csv`; a URL whose path
yields no usable name falls back to the generated unique identifier, so
calls drawing distinct identifiers derive distinct keys; and the key the
transfer opens the session with is exactly `get_filename_from_url`'s
result. -/
theorem C9_filename_derivation :
    (∀ u : String,
      get_filename_from_url "https://host/path/My File.csv" u
        = "My File.csv") ∧
    (∀ u : String,
      get_filename_from_url "https://host/path/My%20File.csv" u
        = "My File.csv") ∧
    (∀ u : String, get_filename_from_url "https://host" u = u) ∧
    (∀ u₁ u₂ : String, u₁ ≠ u₂ →
      get_filename_from_url "https://host" u₁
        ≠ get_filename_from_url "https://host" u₂) ∧
    (∀ (bn eu : String) (oracle : S3Oracle)
        (fetch : Except String (List (List Nat))) (url : String)
        (mp : Bool) (u : String),
      (stream_upload_to_s3 bn eu oracle fetch url none mp u).1.head?
        = some (.createCall (get_filename_from_url url u)
            (if mp then "public-read" else "private"))) := by
  refine ⟨fun u => rfl, fun u => rfl, fun u => rfl, fun u₁ u₂ h => h, ?_⟩
  intro bn eu oracle fetch url mp u
  rfl

/-- Witness for C9: two transfers of a path-less URL drawing the distinct
identifiers "a" and "b" derive distinct keys. -/
theorem C9_filename_derivation_witness :
    get_filename_from_url "https://host" "a"
      ≠ get_filename_from_url "https://host" "b" :=
  C9_filename_derivation.2.2.2.1 "a" "b" (by decide)

/-- C10: the key the session is opened with equals `custom_filename`
exactly when that is a non-empty string; `None` and the empty string both
fall back to URL derivation; and, as long as the generated identifier is
non-empty, the chosen key is never the empty string. -/
theorem C10_custom_filename (bn eu : String) (oracle : S3Oracle)
    (fetch : Except String (List (List Nat))) (url : String) (mp : Bool)
    (uuid : String) :
    (∀ s : String, s ≠ "" →
      (stream_upload_to_s3 bn eu oracle fetch url (some s) mp
          uuid).1.head?
        = some (.createCall s
            (if mp then "public-read" else "private"))) ∧
    ((stream_upload_to_s3 bn eu oracle fetch url none mp uuid).1.head?
      = some (.createCall (get_filename_from_url url uuid)
          (if mp then "public-read" else "private"))) ∧
    ((stream_upload_to_s3 bn eu oracle fetch url (some "") mp
        uuid).1.head?
      = some (.createCall (get_filename_from_url url uuid)
          (if mp then "public-read" else "private"))) ∧
    (∀ cf : Option String, uuid ≠ "" →
      chooseFilename cf url uuid ≠ "") := by
  refine ⟨?_, rfl, rfl, ?_⟩
  · intro s hs
    simp [stream_upload_to_s3, chooseFilename, hs]
  · intro cf hu
    cases cf with
    | none => exact get_filename_from_url_ne_empty url uuid hu
    | some s =>
      simp only [chooseFilename]
      split
      · exact get_filename_from_url_ne_empty url uuid hu
      · rename_i hs
        exact hs

/-- Witness for C10: a non-empty custom name is used verbatim as the key
and is itself a non-empty key. -/
theorem C10_custom_filename_witness :
    ((stream_upload_to_s3 "bk" "ep" okOracle (.ok [[1]])
        "https://host/f.bin" (some "custom.bin") true "u").1.head?
      = some (.createCall "custom.bin" "public-read")) ∧
    chooseFilename (some "custom.bin") "https://host/f.bin" "u" ≠ "" :=
  ⟨(C10_custom_filename "bk" "ep" okOracle (.ok [[1]])
      "https://host/f.bin" true "u").1 "custom.bin" (by decide),
   (C10_custom_filename "bk" "ep" okOracle (.ok [[1]])
      "https://host/f.bin" true "u").2.2.2 (some "custom.bin")
     (by decide)⟩

/-- Counterexample to C1 as stated: in a transfer whose part upload fails
after the session has been opened, the number of abort calls in the trace
is 0, not 1 — the code has no abort path at all. -/
theorem C1_abort_counterexample :
    (stream_upload_to_s3 "bk" "ep" failPartOracle (.ok [[7]])
        "https://host/f.bin" none false "u").2 = .error "boom" ∧
    ((stream_upload_to_s3 "bk" "ep" failPartOracle (.ok [[7]])
        "https://host/f.bin" none false "u").1.count S3Event.abortCall
      = 0) := by
  exact ⟨rfl, by decide⟩

/-- C1 amended: after the session is opened, a failing part upload
propagates the original store error unchanged with no Complete call made,
and a failing completion call likewise propagates its original store
error unchanged — but Abort is never invoked: no run's trace contains an
abort call. -/
theorem C1_no_abort_amended (bn eu : String) (oracle : S3Oracle)
    (url : String) (cf : Option String) (mp : Bool) (uuid : String) :
    (∀ fetch : Except String (List (List Nat)),
      S3Event.abortCall
        ∉ (stream_upload_to_s3 bn eu oracle fetch url cf mp uuid).1) ∧
    (∀ (uid : String) (chunks : List (List Nat)) (ptr : List S3Event)
        (e : String),
      oracle.createUpload (chooseFilename cf url uuid)
        (if mp then "public-read" else "private") = .ok uid →
      upload_all_parts oracle chunks = (ptr, .error e) →
      stream_upload_to_s3 bn eu oracle (.ok chunks) url cf mp uuid
        = (.createCall (chooseFilename cf url uuid)
            (if mp then "public-read" else "private") :: ptr, .error e) ∧
      ∀ ps, S3Event.completeCall ps
        ∉ (.createCall (chooseFilename cf url uuid)
            (if mp then "public-read" else "private") :: ptr :
            List S3Event)) ∧
    (∀ (uid : String) (chunks : List (List Nat)) (ptr : List S3Event)
        (parts : List Part) (e : String),
      oracle.createUpload (chooseFilename cf url uuid)
        (if mp then "public-read" else "private") = .ok uid →
      upload_all_parts oracle chunks = (ptr, .ok parts) →
      oracle.completeUpload parts = .error e →
      stream_upload_to_s3 bn eu oracle (.ok chunks) url cf mp uuid
        = (.createCall (chooseFilename cf url uuid)
            (if mp then "public-read" else "private")
            :: ptr ++ [.completeCall parts], .error e)) := by
  refine ⟨?_, ?_, ?_⟩
  · intro fetch hmem
    rcases stream_upload_events bn eu oracle fetch url cf mp uuid _ hmem
      with ⟨k, a, heq⟩ | ⟨k, b, heq, _⟩ | ⟨ps, heq⟩ | ⟨k, x, heq⟩ <;>
      exact absurd heq (by simp)
  · intro uid chunks ptr e hc hp
    constructor
    · rw [stream_upload_run bn eu oracle url cf mp uuid uid chunks hc,
        finish_upload_parts_err bn eu _ oracle mp chunks ptr e hp]
    · intro ps hmem
      rw [List.mem_cons] at hmem
      rcases hmem with heq | hmem
      · exact absurd heq (by simp)
      · obtain ⟨k, b, heq, _⟩ := upload_all_parts_events oracle chunks _
          (by rw [hp]; exact hmem)
        exact absurd heq (by simp)
  · intro uid chunks ptr parts e hc hp hcomp
    rw [stream_upload_run bn eu oracle url cf mp uuid uid chunks hc,
      finish_upload_complete_err bn eu _ oracle mp chunks ptr parts e hp
        hcomp]
    rfl

/-- Witness for the amended C1: the 1-byte transfer whose part upload
fails ends with the raw error, no abort and no completion call in its
trace; the 1-byte transfer whose completion call fails ends with that
call's raw error. -/
theorem C1_no_abort_amended_witness :
    (S3Event.abortCall
      ∉ (stream_upload_to_s3 "bk" "ep" failPartOracle (.ok [[8]])
          "https://host/g.bin" none false "u").1) ∧
    (stream_upload_to_s3 "bk" "ep" failPartOracle (.ok [[8]])
        "https://host/g.bin" none false "u"
      = (.createCall (chooseFilename none "https://host/g.bin" "u")
          (if false then "public-read" else "private")
          :: [S3Event.uploadPartCall 1 [8]], .error "boom") ∧
     ∀ ps, S3Event.completeCall ps
       ∉ (.createCall (chooseFilename none "https://host/g.bin" "u")
           (if false then "public-read" else "private")
           :: [S3Event.uploadPartCall 1 [8]] : List S3Event)) ∧
    (stream_upload_to_s3 "bk" "ep" failCompleteOracle (.ok [[8]])
        "https://host/g.bin" none false "u"
      = (.createCall (chooseFilename none "https://host/g.bin" "u")
          (if false then "public-read" else "private")
          :: [S3Event.uploadPartCall 1 [8]]
            ++ [.completeCall [⟨1, "etag1"⟩]], .error "boom")) :=
  ⟨(C1_no_abort_amended "bk" "ep" failPartOracle "https://host/g.bin" none
      false "u").1 (.ok [[8]]),
   (C1_no_abort_amended "bk" "ep" failPartOracle "https://host/g.bin" none
      false "u").2.1 "uid" [[8]] [S3Event.uploadPartCall 1 [8]] "boom" rfl
     rfl,
   (C1_no_abort_amended "bk" "ep" failCompleteOracle "https://host/g.bin"
      none false "u").2.2 "uid" [[8]] [S3Event.uploadPartCall 1 [8]]
     [⟨1, "etag1"⟩] "boom" rfl rfl rfl⟩

/-- Counterexample to C5 as stated: two transfers that fail at different
sequence numbers (part 1 and part 2) surface the identical raw error
value, so the surfaced error carries no sequence number and is no
distinguished part-upload error; the failing part is visible only in the
trace. -/
theorem C5_counterexample :
    (stream_upload_to_s3 "bk" "ep" failPartOracle (.ok [[7]])
        "https://host/f.bin" none false "u").2 = .error "boom" ∧
    (stream_upload_to_s3 "bk" "ep" failPartOracle (.ok [[7]])
        "https://host/f.bin" none false "u").1.getLast?
      = some (S3Event.uploadPartCall 1 [7]) ∧
    (stream_upload_to_s3 "bk" "ep" failSecondOracle
        (.ok [List.replicate chunk_size 0, [7]])
        "https://host/f.bin" none false "u").2 = .error "boom" ∧
    (stream_upload_to_s3 "bk" "ep" failSecondOracle
        (.ok [List.replicate chunk_size 0, [7]])
        "https://host/f.bin" none false "u").1.getLast?
      = some (S3Event.uploadPartCall 2 [7]) ∧
    (stream_upload_to_s3 "bk" "ep" failPartOracle (.ok [[7]])
        "https://host/f.bin" none false "u").2
      = (stream_upload_to_s3 "bk" "ep" failSecondOracle
          (.ok [List.replicate chunk_size 0, [7]])
          "https://host/f.bin" none false "u").2 := by
  have hparts : upload_all_parts failSecondOracle
      [List.replicate chunk_size 0, [7]]
      = ([S3Event.uploadPartCall 1 (List.replicate chunk_size 0),
          S3Event.uploadPartCall 2 [7]], .error "boom") :=
    upload_all_parts_big_then_fail failSecondOracle
      (List.replicate chunk_size 0) [7] "etag1" "boom" (by simp)
      (by decide) (by decide) rfl rfl
  have hrun := stream_upload_run "bk" "ep" failSecondOracle
    "https://host/f.bin" none false "u" "uid"
    [List.replicate chunk_size 0, [7]] rfl
  rw [finish_upload_parts_err "bk" "ep" _ failSecondOracle false _ _ _
    hparts] at hrun
  refine ⟨rfl, rfl, ?_, ?_, ?_⟩
  · rw [hrun]
  · rw [hrun]
    rfl
  · rw [hrun]
    rfl

/-- C5 amended: when the upload of part n fails, the surfaced error is
the store's raw error value, propagated unchanged — it carries no
sequence number and no part-upload marker; the failing sequence number
appears only in the call trace (the log line), whose last event is the
failing `upload_part` call. -/
theorem C5_raw_error_amended (bn eu : String) (oracle : S3Oracle)
    (url : String) (cf : Option String) (mp : Bool) (uuid uid : String)
    (chunks : List (List Nat)) (ptr : List S3Event) (e : String)
    (hc : oracle.createUpload (chooseFilename cf url uuid)
      (if mp then "public-read" else "private") = .ok uid)
    (hp : upload_all_parts oracle chunks = (ptr, .error e)) :
    (stream_upload_to_s3 bn eu oracle (.ok chunks) url cf mp uuid).2
      = .error e ∧
    ∃ tr₀ k b,
      (stream_upload_to_s3 bn eu oracle (.ok chunks) url cf mp uuid).1
        = .createCall (chooseFilename cf url uuid)
            (if mp then "public-read" else "private")
          :: tr₀ ++ [S3Event.uploadPartCall k b] ∧
      oracle.uploadPart k b = .error e := by
  have hrun := stream_upload_run bn eu oracle url cf mp uuid uid chunks hc
  rw [finish_upload_parts_err bn eu _ oracle mp chunks ptr e hp] at hrun
  obtain ⟨tr₀, k, b, htr, ho, hb⟩ := upload_all_parts_err oracle chunks ptr
    e hp
  refine ⟨by rw [hrun], tr₀, k, b, ?_, ho⟩
  rw [hrun, htr]
  rfl

/-- Witness for the amended C5: the failing 1-byte transfer surfaces the
bare "boom" and its trace ends in the failing call for part 1. -/
theorem C5_raw_error_amended_witness :
    ((stream_upload_to_s3 "bk" "ep" failPartOracle (.ok [[9]])
        "https://host/h.bin" none false "u").2 = .error "boom") ∧
    ∃ tr₀ k b,
      (stream_upload_to_s3 "bk" "ep" failPartOracle (.ok [[9]])
          "https://host/h.bin" none false "u").1
        = .createCall (chooseFilename none "https://host/h.bin" "u")
            (if false then "public-read" else "private")
          :: tr₀ ++ [S3Event.uploadPartCall k b] ∧
      failPartOracle.uploadPart k b = .error "boom" :=
  C5_raw_error_amended "bk" "ep" failPartOracle "https://host/h.bin" none
    false "u" "uid" [[9]] [S3Event.uploadPartCall 1 [9]] "boom" rfl rfl

/-- Counterexample to C4 as stated: a presign failure after a successful
completion and a part-upload failure (nothing stored) surface the very
same bare error value; the surfaced result carries no indication that the
object is durably stored and is not a distinct failure class — the
completion is visible only in the trace. -/
theorem C4_counterexample :
    (stream_upload_to_s3 "bk" "ep" failPresignOracle (.ok [[7]])
        "https://host/f.bin" none false "u").2 = .error "boom" ∧
    S3Event.completeCall [⟨1, "etag1"⟩]
      ∈ (stream_upload_to_s3 "bk" "ep" failPresignOracle (.ok [[7]])
          "https://host/f.bin" none false "u").1 ∧
    (stream_upload_to_s3 "bk" "ep" failPartOracle (.ok [[7]])
        "https://host/f.bin" none false "u").2 = .error "boom" ∧
    (∀ ps, S3Event.completeCall ps
      ∉ (stream_upload_to_s3 "bk" "ep" failPartOracle (.ok [[7]])
          "https://host/f.bin" none false "u").1) ∧
    (stream_upload_to_s3 "bk" "ep" failPresignOracle (.ok [[7]])
        "https://host/f.bin" none false "u").2
      = (stream_upload_to_s3 "bk" "ep" failPartOracle (.ok [[7]])
          "https://host/f.bin" none false "u").2 := by
  refine ⟨rfl, by decide, rfl, ?_, rfl⟩
  intro ps hmem
  have htr : (stream_upload_to_s3 "bk" "ep" failPartOracle (.ok [[7]])
      "https://host/f.bin" none false "u").1
      = [S3Event.createCall "f.bin" "private",
         S3Event.uploadPartCall 1 [7]] := rfl
  rw [htr] at hmem
  simp at hmem

/-- C4 amended: if URL derivation fails after the completion call has
succeeded, the code logs and re-raises the raw signing error: the caller
receives a bare error with no stored-object indication, of the same kind
as for an upload failure; the successful completion is visible only in
the call trace. -/
theorem C4_presign_error_amended (bn eu : String) (oracle : S3Oracle)
    (url : String) (cf : Option String) (uuid uid : String)
    (chunks : List (List Nat)) (ptr : List S3Event) (parts : List Part)
    (e : String)
    (hc : oracle.createUpload (chooseFilename cf url uuid) "private"
      = .ok uid)
    (hp : upload_all_parts oracle chunks = (ptr, .ok parts))
    (hcomp : oracle.completeUpload parts = .ok ())
    (hs : oracle.presign (chooseFilename cf url uuid) 3600 = .error e) :
    stream_upload_to_s3 bn eu oracle (.ok chunks) url cf false uuid
      = (.createCall (chooseFilename cf url uuid) "private"
          :: ptr ++ [.completeCall parts,
            .presignCall (chooseFilename cf url uuid) 3600],
         .error e) := by
  have hrun := stream_upload_run bn eu oracle url cf false uuid uid chunks
    hc
  rw [finish_upload_presign_err bn eu _ oracle chunks ptr parts e hp hcomp
    hs] at hrun
  exact hrun

/-- Witness for the amended C4: the 1-byte transfer whose presign fails
returns the bare "boom" although its trace contains the successful
completion call. -/
theorem C4_presign_error_amended_witness :
    stream_upload_to_s3 "bk" "ep" failPresignOracle (.ok [[7]])
        "https://host/f.bin" none false "u"
      = (.createCall (chooseFilename none "https://host/f.bin" "u")
          "private"
          :: [S3Event.uploadPartCall 1 [7]]
            ++ [.completeCall [⟨1, "etag1"⟩],
              .presignCall (chooseFilename none "https://host/f.bin" "u")
                3600],
         .error "boom") :=
  C4_presign_error_amended "bk" "ep" failPresignOracle
    "https://host/f.bin" none "u" "uid" [[7]]
    [S3Event.uploadPartCall 1 [7]] [⟨1, "etag1"⟩] "boom" rfl rfl rfl rfl

end S3Upload
